import Mathlib

/-!
# Friendship-day quotes server: pagination, parsing and rendering

A shallow embedding of `main.go`.

* Go strings are modelled as lists of Unicode code points (`GoString`); the
  embedded files are assumed to be valid UTF-8.
* Go `int` is the 64-bit two's-complement integer.  Values are carried as
  `Int` and every arithmetic result is passed through `wrap`.
* Functions of the Go standard library that the program calls
  (`strconv.Atoi`, `strconv.Itoa`, `strings.Split`, `strings.TrimSpace`,
  `strings.ReplaceAll`, `unicode.IsSpace`, the `http.ResponseWriter`
  status rule) are modelled after their documented behaviour.
* Every path of `friendsHandler` ends in a call of `renderTemplate`; the
  embedding of the handler returns that call (`Outcome.render`), and
  `renderTemplate` is embedded separately on an explicit response writer.
* The loop of `getPageRanges` and the mutual recursion of `renderTemplate` and
  `internalServerErrorHandler` take a fuel argument; `none` (or
  `Outcome.outOfFuel`) means the fuel ran out before the code returned.
-/

set_option maxRecDepth 8000

namespace FriendshipDay

/-! ## Machine integers -/

/-- Bit width of Go `int` on the modelled target. -/
def intSize : Nat := 64

/-- Largest `int`. -/
def maxInt : Int := 2 ^ (intSize - 1) - 1

/-- Smallest `int`. -/
def minInt : Int := -(2 ^ (intSize - 1))

/-- Two's-complement wrap-around of an arithmetic result into the `int` range. -/
def wrap (x : Int) : Int := (x + 2 ^ (intSize - 1)) % 2 ^ intSize - 2 ^ (intSize - 1)

/-- Go `a + b` on `int`. -/
def iadd (a b : Int) : Int := wrap (a + b)

/-- Go `a - b` on `int`. -/
def isub (a b : Int) : Int := wrap (a - b)

/-- Go `a * b` on `int`. -/
def imul (a b : Int) : Int := wrap (a * b)

/-- Go `a / b` on `int` for a non-zero divisor: truncation toward zero. -/
def idiv (a b : Int) : Int := wrap (Int.tdiv a b)

/-! ## Strings and `strconv` -/

/-- Go string, as its sequence of code points. -/
abbrev GoString := List Char

/-- Model of `strconv.Itoa`: the decimal numeral of an `int`. -/
def Itoa (i : Int) : GoString :=
  if i < 0 then '-' :: Nat.toDigits 10 i.natAbs else Nat.toDigits 10 i.natAbs

/-- The two errors `strconv.Atoi` reports. -/
inductive NumError where
  | errSyntax
  | errRange
  deriving DecidableEq, Repr

/-- Value of a string of ASCII decimal digits; `none` when a character is not
a digit. The empty string has value `0` here and is rejected by `Atoi`. -/
def parseDigits : Nat → GoString → Option Nat
  | acc, [] => some acc
  | acc, c :: cs =>
    if '0' ≤ c ∧ c ≤ '9' then parseDigits (acc * 10 + (c.toNat - '0'.toNat)) cs else none

/-- Whether a numeral starts with the minus sign. -/
def hasMinus : GoString → Bool
  | '-' :: _ => true
  | _ => false

/-- A numeral without its leading sign, if it has one. -/
def dropSign : GoString → GoString
  | '-' :: r => r
  | '+' :: r => r
  | s => s

/-- Model of `strconv.Atoi` (`ParseInt(s, 10, 0)`): an optional sign followed
by one or more decimal digits. A malformed string gives `(0, ErrSyntax)`; a
numeral outside the `int` range gives the nearest bound and `ErrRange`. -/
def Atoi (s : GoString) : Int × Option NumError :=
  if dropSign s = [] then (0, some NumError.errSyntax)
  else
    match parseDigits 0 (dropSign s) with
    | none => (0, some NumError.errSyntax)
    | some n =>
      if hasMinus s then
        if -(n : Int) < minInt then (minInt, some NumError.errRange) else (-(n : Int), none)
      else
        if maxInt < (n : Int) then (maxInt, some NumError.errRange) else ((n : Int), none)

/-! ## Pagination -/

/-- Constant `friendsPerPage`. -/
def friendsPerPage : Int := 3

/-- The loop `for i := pageStart; i <= pageEnd; i++ { pageRanges = append(pageRanges, strconv.Itoa(i)) }`
of `getPageRanges`; `none` when the fuel runs out before the loop exits. -/
def pageRangesLoop : Nat → Int → Int → List GoString → Option (List GoString)
  | 0, _, _, _ => none
  | fuel + 1, i, pageEnd, pageRanges =>
    if i ≤ pageEnd then pageRangesLoop fuel (iadd i 1) pageEnd (pageRanges ++ [Itoa i])
    else some pageRanges

/-- Function `getPageRanges(currentPage, totalPages)`. -/
def getPageRanges (fuel : Nat) (currentPage totalPages : Int) : Option (List GoString) :=
  let pageStart := iadd (imul (idiv (isub currentPage 1) 3) 3) 1
  let pageEnd := iadd pageStart 2
  let pageEnd := if pageEnd > totalPages then totalPages else pageEnd
  pageRangesLoop fuel pageStart pageEnd []

/-- The expression `(len(friends) + friendsPerPage - 1) / friendsPerPage` of
`friendsHandler`, as a function of `len(friends)`. -/
def totalPagesOf (len : Int) : Int :=
  idiv (isub (iadd len friendsPerPage) 1) friendsPerPage

/-! ## `strings` and `unicode` -/

/-- Model of `unicode.IsSpace`: the Latin-1 cases of the Go source, and the
`White_Space` range table above Latin-1. -/
def IsSpace (r : Char) : Bool :=
  let n := r.toNat
  if n ≤ 0xFF then
    decide (n = 0x09 ∨ n = 0x0A ∨ n = 0x0B ∨ n = 0x0C ∨ n = 0x0D ∨ n = 0x20 ∨ n = 0x85 ∨ n = 0xA0)
  else
    decide (n = 0x1680 ∨ (0x2000 ≤ n ∧ n ≤ 0x200A) ∨ n = 0x2028 ∨ n = 0x2029 ∨ n = 0x202F
      ∨ n = 0x205F ∨ n = 0x3000)

/-- Model of `strings.TrimSpace`: leading and trailing white space removed. -/
def TrimSpace (s : GoString) : GoString :=
  (s.dropWhile IsSpace).rdropWhile IsSpace

/-- Scan of `strings.Split` for a non-empty separator: `skip` counts the
characters of a matched separator still to be passed over, `cur` holds the
current piece in reverse. Separators are matched leftmost and do not overlap. -/
def splitAux (sep : GoString) : GoString → Nat → GoString → List GoString
  | [], _, cur => [cur.reverse]
  | _ :: rest, skip + 1, cur => splitAux sep rest skip cur
  | c :: rest, 0, cur =>
    if sep.isPrefixOf (c :: rest) then cur.reverse :: splitAux sep rest (sep.length - 1) []
    else splitAux sep rest 0 (c :: cur)

/-- Model of `strings.Split(s, sep)` for a non-empty `sep`. -/
def Split (s sep : GoString) : List GoString := splitAux sep s 0 []

/-- Scan of `strings.ReplaceAll` for a non-empty `old`, with the same `skip`
counter as `splitAux`. -/
def replaceAux (old new : GoString) : GoString → Nat → GoString
  | [], _ => []
  | _ :: rest, skip + 1 => replaceAux old new rest skip
  | c :: rest, 0 =>
    if old.isPrefixOf (c :: rest) then new ++ replaceAux old new rest (old.length - 1)
    else c :: replaceAux old new rest 0

/-- Model of `strings.ReplaceAll(s, old, new)` for a non-empty `old`. -/
def ReplaceAll (s old new : GoString) : GoString := replaceAux old new s 0

/-! ## Content store and the friend parser -/

/-- The embedded file system `content`: `ReadFile` of a path, `none` on error. -/
abbrev FS := GoString → Option GoString

/-- Type `template.HTML`. -/
abbrev HTML := GoString

/-- Body of the loop `for _, block := range blocks` of `getFriendsFromTextFile`. -/
def friendsStep (friends : List HTML) (block : GoString) : List HTML :=
  let trimmed := TrimSpace block
  if trimmed ≠ [] then
    let htmlBlock := ReplaceAll trimmed "\n".toList "<br>".toList
    friends ++ [htmlBlock]
  else friends

/-- Function `getFriendsFromTextFile(filePath)`; `none` is the error return. -/
def getFriendsFromTextFile (content : FS) (filePath : GoString) : Option (List HTML) :=
  match content filePath with
  | none => none
  | some data =>
    let blocks := Split data "\n\n".toList
    some (blocks.foldl friendsStep [])

/-! ## The `/friends` handler -/

/-- Type `PageData`. -/
structure PageData where
  Title : GoString
  Description : GoString
  CanonicalURL : GoString
  Friends : List HTML
  PrevPage : Int
  NextPage : Int
  CurrentPage : Int
  PageRanges : List GoString
  deriving DecidableEq, Repr

/-- The parts of `*http.Request` the handlers read: `r.URL.Query().Get("page")`,
whether `r.TLS != nil`, `r.Host` and `r.RequestURI`. -/
structure Request where
  page : GoString
  tls : Bool
  host : GoString
  requestURI : GoString
  deriving DecidableEq, Repr

/-- What a handler does: the call of `renderTemplate` it ends in, a run-time
panic of the slice expression, or a loop that did not finish within the fuel. -/
inductive Outcome where
  | render (tmplPath : GoString) (data : Option PageData) (statusCode : Int)
  | panic
  | outOfFuel
  deriving DecidableEq, Repr

/-- Path of the index template. -/
def indexTmpl : GoString := "templates/index.html".toList

/-- Path of the not-found template. -/
def notFoundTmpl : GoString := "templates/404.html".toList

/-- Path of the server-error template. -/
def errorTmpl : GoString := "templates/500.html".toList

/-- Path of the quotes file. -/
def friendsFile : GoString := "friends/friends.txt".toList

/-- Constant `http.StatusOK`. -/
def StatusOK : Int := 200

/-- Constant `http.StatusSeeOther`. -/
def StatusSeeOther : Int := 303

/-- Constant `http.StatusNotFound`. -/
def StatusNotFound : Int := 404

/-- Constant `http.StatusInternalServerError`. -/
def StatusInternalServerError : Int := 500

/-- Function `constructCanonicalURL(r)`. -/
def constructCanonicalURL (r : Request) : GoString :=
  let proto := if r.tls then "https".toList else "http".toList
  let requestURL := r.requestURI
  proto ++ "://".toList ++ r.host ++ requestURL

/-- Go slice expression `s[low:high]`: `none` is the run-time panic. The upper
bound is checked against `len(s)`, which is at most `cap(s)`. -/
def sliceExpr {α : Type} (s : List α) (low high : Int) : Option (List α) :=
  if 0 ≤ low ∧ low ≤ high ∧ high ≤ (s.length : Int) then
    some ((s.take high.toNat).drop low.toNat)
  else none

/-- Lines 65-69 of `friendsHandler`: the page number taken from the query. -/
def requestedPage (pageStr : GoString) : Int :=
  let (page, err) := Atoi pageStr
  if err ≠ none ∨ page < 1 then 1 else page

/-- Line 85 of `friendsHandler`: `start`. -/
def sliceStart (page : Int) : Int := imul (isub page 1) friendsPerPage

/-- Lines 86-89 of `friendsHandler`: `end`. -/
def sliceEnd (page : Int) (len : Int) : Int :=
  let e := iadd (sliceStart page) friendsPerPage
  if e > len then len else e

/-- Lines 78-116 of `friendsHandler`: the response for page number `page` once
the entries are read. The fuel is that of the loop in `getPageRanges`. -/
def friendsPage (fuel : Nat) (r : Request) (page : Int) (friends : List HTML) : Outcome :=
  let totalPages := totalPagesOf (friends.length : Int)
  if page > totalPages then
    Outcome.render notFoundTmpl none StatusSeeOther
  else
    let start := sliceStart page
    let «end» := sliceEnd page (friends.length : Int)
    let prevPage := if page > 1 then isub page 1 else 0
    let nextPage := if page < totalPages then iadd page 1 else 0
    match getPageRanges fuel page totalPages with
    | none => Outcome.outOfFuel
    | some pageRanges =>
      let canonicalURL := constructCanonicalURL r
      match sliceExpr friends start «end» with
      | none => Outcome.panic
      | some shown =>
        Outcome.render indexTmpl
          (some {
            Title := "Happy Friendship Day Quotes - Page ".toList ++ Itoa page
            Description := "A collection of Friendship Quotes - Page ".toList ++ Itoa page
            CanonicalURL := canonicalURL
            Friends := shown
            PrevPage := prevPage
            NextPage := nextPage
            CurrentPage := page
            PageRanges := pageRanges })
          StatusOK

/-- Function `friendsHandler(w, r)`, up to the call of `renderTemplate` it ends in. -/
def friendsHandler (fuel : Nat) (content : FS) (r : Request) : Outcome :=
  let page := requestedPage r.page
  match getFriendsFromTextFile content friendsFile with
  | none => Outcome.render errorTmpl none StatusInternalServerError
  | some friends => friendsPage fuel r page friends

/-! ## Template rendering -/

/-- A parsed template: what `Execute` writes for the given data, and whether
it returns without error. -/
structure Template where
  exec : Option PageData → GoString × Bool

/-- The environment of `renderTemplate`: the content store and the template
parser `template.New("tmpl").Parse`, `none` on a parse error. -/
structure Env where
  content : FS
  parse : GoString → Option Template

/-- The state of an `http.ResponseWriter`: the status sent, if any, and the body. -/
structure ResponseWriter where
  status : Option Int
  body : GoString
  deriving DecidableEq, Repr

/-- Method `WriteHeader`: only the first status is sent. -/
def ResponseWriter.WriteHeader (w : ResponseWriter) (statusCode : Int) : ResponseWriter :=
  match w.status with
  | some _ => w
  | none => { w with status := some statusCode }

/-- Method `Write`: sends status 200 first when no status was sent. -/
def ResponseWriter.Write (w : ResponseWriter) (b : GoString) : ResponseWriter :=
  { status := some (w.status.getD StatusOK), body := w.body ++ b }

mutual

/-- Function `renderTemplate(w, tmplPath, data, statusCode)`; the fuel bounds
the depth of calls and `none` means it was exhausted. -/
def renderTemplate : Nat → Env → ResponseWriter → GoString → Option PageData → Int →
    Option ResponseWriter
  | 0, _, _, _, _, _ => none
  | fuel + 1, env, w, tmplPath, data, statusCode =>
    match env.content tmplPath with
    | none => internalServerErrorHandler fuel env w
    | some tmplContent =>
      match env.parse tmplContent with
      | none => internalServerErrorHandler fuel env w
      | some tmpl =>
        let w1 := if statusCode ≠ StatusOK then w.WriteHeader statusCode else w
        let w2 := if (tmpl.exec data).1 = [] then w1 else w1.Write (tmpl.exec data).1
        if (tmpl.exec data).2 then some w2 else internalServerErrorHandler fuel env w2

/-- Function `internalServerErrorHandler(w, r)`. -/
def internalServerErrorHandler : Nat → Env → ResponseWriter → Option ResponseWriter
  | 0, _, _ => none
  | fuel + 1, env, w => renderTemplate fuel env w errorTmpl none StatusInternalServerError

end

/-- Function `notFoundHandler(w, r)`. -/
def notFoundHandler (fuel : Nat) (env : Env) (w : ResponseWriter) : Option ResponseWriter :=
  renderTemplate fuel env w notFoundTmpl none StatusNotFound

/-! ## Specification vocabulary and sample data -/

/-- The consecutive integers `s, s + 1, ..., e`, in decimal. -/
def decimalRun (s e : Int) : List GoString :=
  (List.range (e - s + 1).toNat).map (fun (j : Nat) => Itoa (s + (j : Int)))

/-- The Go slice `l[lo:hi]` for indices within bounds. -/
def subList {α : Type} (l : List α) (lo hi : Int) : List α := (l.take hi.toNat).drop lo.toNat

/-- The page count `ceil(n / 3)`. -/
def ceilThird (n : Nat) : Int := ⌈(n : ℚ) / 3⌉

/-- The page view `friendsHandler` builds for page `page` of `friends`, as the
specification describes it. -/
def pageViewSpec (r : Request) (page : Int) (friends : List HTML) : PageData :=
  { Title := "Happy Friendship Day Quotes - Page ".toList ++ Itoa page
    Description := "A collection of Friendship Quotes - Page ".toList ++ Itoa page
    CanonicalURL := constructCanonicalURL r
    Friends := subList friends ((page - 1) * 3) (min (page * 3) (friends.length : Int))
    PrevPage := if page > 1 then page - 1 else 0
    NextPage := if page < ceilThird friends.length then page + 1 else 0
    CurrentPage := page
    PageRanges := decimalRun (3 * ((page - 1) / 3) + 1)
      (min (3 * ((page - 1) / 3) + 1 + 2) (ceilThird friends.length)) }

/-- A content store holding a quotes file with four non-empty blocks. -/
def demoStore : FS := fun p =>
  if p = friendsFile then some "q1\nl2\n\n  \n\nq2\n\n\nq3\n\nq4\n".toList else none

/-- The entries `getFriendsFromTextFile` reads from `demoStore`. -/
def demoEntries : List HTML := ["q1<br>l2".toList, "q2".toList, "q3".toList, "q4".toList]

/-- A request for `/friends` with the given `page` parameter. -/
def demoRequest (page : String) : Request :=
  { page := page.toList, tls := false, host := "example.org".toList,
    requestURI := "/friends?page=".toList ++ page.toList }

/-- The integer a decimal numeral denotes (an optional sign and one or more
digits), whatever its size; `none` for any other string. -/
def numeralValue (s : GoString) : Option Int :=
  if dropSign s = [] then none
  else (parseDigits 0 (dropSign s)).map
    (fun (n : Nat) => if hasMinus s then -(n : Int) else (n : Int))

/-- The string `s` with every newline replaced by `<br>`. -/
def brLines (s : GoString) : GoString :=
  s.flatMap (fun c => if c = '\n' then "<br>".toList else [c])

/-- The entries the specification describes for a file content: the blocks
between double newlines, trimmed, the empty ones dropped, newlines replaced. -/
def friendsSpec (data : GoString) : List HTML :=
  (((Split data "\n\n".toList).map TrimSpace).filter (fun t => t ≠ [])).map brLines

/-- A template that writes nothing and succeeds. -/
def emptyTemplate : Template := { exec := fun _ => ([], true) }

/-- A template whose execution writes a heading and then fails. -/
def failingTemplate : Template := { exec := fun _ => ("<h1>".toList, false) }

/-- An environment whose content store holds every file except
`templates/500.html`; every file parses to `emptyTemplate`. -/
def envWithoutErrorTmpl : Env :=
  { content := fun p => if p = errorTmpl then none else some []
    parse := fun _ => some emptyTemplate }

/-- An environment in which `templates/500.html` holds text that does not
parse; every other file is empty and parses to `emptyTemplate`. -/
def envUnparsableErrorTmpl : Env :=
  { content := fun p => if p = errorTmpl then some "\x7b\x7b".toList else some []
    parse := fun c => if c = "\x7b\x7b".toList then none else some emptyTemplate }

/-- An environment in which `templates/500.html` parses to `failingTemplate`;
every other file is empty and parses to `emptyTemplate`. -/
def envFailingErrorTmpl : Env :=
  { content := fun p => if p = errorTmpl then some "\x7b\x7b.X\x7d\x7d".toList else some []
    parse := fun c =>
      if c = "\x7b\x7b.X\x7d\x7d".toList then some failingTemplate else some emptyTemplate }

/-- A response writer nothing was written to. -/
def freshWriter : ResponseWriter := { status := none, body := [] }

/-! ## Auxiliary lemmas -/

/-- A value within the `int` range is unchanged by `wrap`. -/
theorem wrap_of_range {x : Int} (h1 : minInt ≤ x) (h2 : x ≤ maxInt) : wrap x = x := by
  unfold wrap
  simp only [minInt, maxInt, intSize] at *
  norm_num at *
  omega

/-- The largest `int` is `2^63 - 1`. -/
theorem maxInt_val : maxInt = 9223372036854775807 := by
  simp [maxInt, intSize]

/-- The smallest `int` is `-2^63`. -/
theorem minInt_val : minInt = -9223372036854775808 := by
  simp [minInt, intSize]

/-- Addition does not overflow when the exact sum is in range. -/
theorem iadd_of_range {a b : Int} (h1 : minInt ≤ a + b) (h2 : a + b ≤ maxInt) : iadd a b = a + b :=
  wrap_of_range h1 h2

/-- Subtraction does not overflow when the exact difference is in range. -/
theorem isub_of_range {a b : Int} (h1 : minInt ≤ a - b) (h2 : a - b ≤ maxInt) : isub a b = a - b :=
  wrap_of_range h1 h2

/-- Multiplication does not overflow when the exact product is in range. -/
theorem imul_of_range {a b : Int} (h1 : minInt ≤ a * b) (h2 : a * b ≤ maxInt) : imul a b = a * b :=
  wrap_of_range h1 h2

/-- Division of a non-negative `int` by 3 is the floor quotient. -/
theorem idiv_three_of_nonneg {a : Int} (h1 : 0 ≤ a) (h2 : a ≤ maxInt) : idiv a 3 = a / 3 := by
  unfold idiv
  rw [Int.tdiv_eq_ediv h1 (by decide)]
  rw [maxInt_val] at h2
  apply wrap_of_range
  · rw [minInt_val]; omega
  · rw [maxInt_val]; omega

/-- Without overflow the page count is `(n + 2) / 3`. -/
theorem totalPagesOf_eq {n : Int} (h0 : 0 ≤ n) (h : n + friendsPerPage - 1 ≤ maxInt) :
    totalPagesOf n = (n + 2) / 3 := by
  unfold totalPagesOf
  simp only [friendsPerPage] at *
  rw [maxInt_val] at h
  have e1 : isub (iadd n 3) 1 = n + 2 := by
    unfold isub iadd wrap
    simp only [intSize]
    norm_num
    omega
  rw [e1, idiv_three_of_nonneg (by omega) (by rw [maxInt_val]; omega)]

/-- A loop with `k = pageEnd - i + 1` iterations left and more than `k` fuel ends
after appending the decimal strings of `i, i + 1, ..., pageEnd`. -/
theorem pageRangesLoop_run (k : Nat) : ∀ (fuel : Nat) (i pageEnd : Int) (acc : List GoString),
    k < fuel → pageEnd < maxInt → minInt ≤ i → (k : Int) = pageEnd - i + 1 →
    pageRangesLoop fuel i pageEnd acc
      = some (acc ++ (List.range k).map (fun (j : Nat) => Itoa (i + (j : Int)))) := by
  induction k with
  | zero =>
    intro fuel i pageEnd acc hf _ _ hk
    obtain ⟨f, rfl⟩ : ∃ f, fuel = f + 1 := ⟨fuel - 1, by omega⟩
    have : ¬ i ≤ pageEnd := by omega
    simp [pageRangesLoop, this]
  | succ k ih =>
    intro fuel i pageEnd acc hf he hi hk
    obtain ⟨f, rfl⟩ : ∃ f, fuel = f + 1 := ⟨fuel - 1, by omega⟩
    have hle : i ≤ pageEnd := by omega
    have hadd : iadd i 1 = i + 1 := iadd_of_range (by omega) (by omega)
    rw [pageRangesLoop, if_pos hle, hadd, ih f (i + 1) pageEnd _ (by omega) he (by omega) (by omega)]
    rw [List.range_succ_eq_map]
    simp [List.map_map, Function.comp_def, add_assoc, add_comm]
    intro a _
    congr 1
    omega

/-- The value of `pageStart` for a positive page number. -/
theorem pageStart_eq {currentPage : Int} (h1 : 1 ≤ currentPage) (h2 : currentPage ≤ maxInt) :
    iadd (imul (idiv (isub currentPage 1) 3) 3) 1 = 3 * ((currentPage - 1) / 3) + 1 := by
  have hm := maxInt_val
  have hn := minInt_val
  rw [isub_of_range (by omega) (by omega), idiv_three_of_nonneg (by omega) (by omega),
    imul_of_range (by omega) (by omega), iadd_of_range (by omega) (by omega)]
  ring

/-- With fuel for four loop tests, `getPageRanges` returns the run of page
numbers starting at `pageStart`, provided `currentPage` is not the largest `int`. -/
theorem getPageRanges_eq (fuel : Nat) (currentPage totalPages : Int) (hfuel : 4 ≤ fuel)
    (h1 : 1 ≤ currentPage) (h2 : currentPage ≤ totalPages) (h4 : currentPage < maxInt) :
    getPageRanges fuel currentPage totalPages
      = some (decimalRun (3 * ((currentPage - 1) / 3) + 1)
          (min (3 * ((currentPage - 1) / 3) + 1 + 2) totalPages)) := by
  have hm := maxInt_val
  have hn := minInt_val
  unfold getPageRanges
  simp only []
  rw [pageStart_eq h1 (by omega)]
  generalize hs : 3 * ((currentPage - 1) / 3) + 1 = s
  have hs1 : s ≤ currentPage := by omega
  have hs2 : currentPage ≤ s + 2 := by omega
  have hs3 : s + 2 ≤ maxInt - 1 := by omega
  rw [iadd_of_range (by omega) (by omega)]
  have hmin : (if s + 2 > totalPages then totalPages else s + 2) = min (s + 2) totalPages := by
    split <;> omega
  rw [hmin]
  generalize he : min (s + 2) totalPages = e
  have he1 : currentPage ≤ e := by omega
  have he2 : e ≤ s + 2 := by omega
  have := pageRangesLoop_run (e - s + 1).toNat fuel s e [] (by omega) (by omega) (by omega) (by omega)
  rw [this]
  simp [decimalRun]

/-- The rational ceiling `ceil(n / 3)` is the integer quotient `(n + 2) / 3`. -/
theorem ceilThird_eq (n : Nat) : ceilThird n = ((n : Int) + 2) / 3 := by
  unfold ceilThird
  rw [Int.ceil_eq_iff]
  have h1 : 3 * (((n : Int) + 2) / 3) - 3 < (n : Int) := by omega
  have h2 : (n : Int) ≤ 3 * (((n : Int) + 2) / 3) := by omega
  have h1q : (3 : ℚ) * ((((n : Int) + 2) / 3 : Int) : ℚ) - 3 < (n : ℚ) := by exact_mod_cast h1
  have h2q : (n : ℚ) ≤ 3 * ((((n : Int) + 2) / 3 : Int) : ℚ) := by exact_mod_cast h2
  constructor
  · rw [lt_div_iff₀ (by norm_num)]; linarith
  · rw [div_le_iff₀ (by norm_num)]; linarith

/-- The page count computed by the handler is `ceil(n / 3)`. -/
theorem totalPagesOf_eq_ceilThird (n : Nat) (h : (n : Int) + friendsPerPage - 1 ≤ maxInt) :
    totalPagesOf (n : Int) = ceilThird n := by
  rw [totalPagesOf_eq (by omega) h, ceilThird_eq]

/-- A value `Atoi` returns without error is within the `int` range. -/
theorem Atoi_range (s : GoString) (h : (Atoi s).2 = none) :
    minInt ≤ (Atoi s).1 ∧ (Atoi s).1 ≤ maxInt := by
  have hm := maxInt_val
  have hn := minInt_val
  unfold Atoi at h ⊢
  split at h
  · simp at h
  · rename_i h0
    rw [if_neg h0]
    split at h
    · simp at h
    · rename_i n hn'
      split at h
      · rename_i h1
        rw [if_pos h1]
        split at h
        · simp at h
        · rename_i h2
          rw [if_neg h2]
          simp only []
          omega
      · rename_i h1
        rw [if_neg h1]
        split at h
        · simp at h
        · rename_i h2
          rw [if_neg h2]
          simp only []
          omega

/-- The character of a decimal digit is an ASCII digit of that value. -/
theorem digitChar_digit (d : Nat) (h : d < 10) :
    '0' ≤ Nat.digitChar d ∧ Nat.digitChar d ≤ '9' ∧
      (Nat.digitChar d).toNat - '0'.toNat = d := by
  interval_cases d <;> decide

/-- Reading back the digits that `Nat.toDigitsCore` writes gives the number. -/
theorem parseDigits_toDigitsCore (fuel : Nat) : ∀ (n : Nat) (ds : GoString), n < fuel →
    ∃ k : Nat, ∀ acc : Nat,
      parseDigits acc (Nat.toDigitsCore 10 fuel n ds) = parseDigits (acc * 10 ^ k + n) ds := by
  induction fuel with
  | zero => intro n ds h; omega
  | succ f ih =>
    intro n ds h
    obtain ⟨d1, d2, d3⟩ := digitChar_digit (n % 10) (Nat.mod_lt _ (by decide))
    rw [Nat.toDigitsCore]
    by_cases h0 : n / 10 = 0
    · simp only [h0, if_true]
      refine ⟨1, fun acc => ?_⟩
      rw [parseDigits, if_pos ⟨d1, d2⟩, d3]
      congr 1
      omega
    · simp only [h0, if_false]
      obtain ⟨k, hk⟩ := ih (n / 10) (Nat.digitChar (n % 10) :: ds) (by omega)
      refine ⟨k + 1, fun acc => ?_⟩
      rw [hk, parseDigits, if_pos ⟨d1, d2⟩, d3]
      congr 1
      rw [pow_succ]
      have := Nat.div_add_mod n 10
      nlinarith

/-- A decimal numeral starts with a digit. -/
theorem toDigitsCore_head (fuel : Nat) : ∀ (n : Nat) (ds : GoString), n < fuel →
    ∃ (c : Char) (rest : GoString),
      Nat.toDigitsCore 10 fuel n ds = c :: rest ∧ '0' ≤ c ∧ c ≤ '9' := by
  induction fuel with
  | zero => intro n ds h; omega
  | succ f ih =>
    intro n ds h
    obtain ⟨d1, d2, _⟩ := digitChar_digit (n % 10) (Nat.mod_lt _ (by decide))
    rw [Nat.toDigitsCore]
    by_cases h0 : n / 10 = 0
    · simp only [h0, if_true]
      exact ⟨_, _, rfl, d1, d2⟩
    · simp only [h0, if_false]
      exact ih (n / 10) _ (by omega)

/-- Model check of `strconv`: `Atoi` reads back what `Itoa` writes, so every
page number is requested by its decimal numeral. -/
theorem Atoi_Itoa (N : Int) (h1 : minInt ≤ N) (h2 : N ≤ maxInt) : Atoi (Itoa N) = (N, none) := by
  have hm := maxInt_val
  have hn := minInt_val
  obtain ⟨k, hk⟩ := parseDigits_toDigitsCore (N.natAbs + 1) N.natAbs [] (by omega)
  obtain ⟨c, rest, hc, c1, c2⟩ := toDigitsCore_head (N.natAbs + 1) N.natAbs [] (by omega)
  have hp : parseDigits 0 (Nat.toDigits 10 N.natAbs) = some N.natAbs := by
    unfold Nat.toDigits
    rw [hk 0]
    simp [parseDigits]
  have hd : Nat.toDigits 10 N.natAbs = c :: rest := hc
  have hminus : c ≠ '-' := by
    rintro rfl
    revert c1
    decide
  have hplus : c ≠ '+' := by
    rintro rfl
    revert c1
    decide
  have hs0 : dropSign (c :: rest) = c :: rest := by
    unfold dropSign
    split
    · rename_i heq; exact absurd (List.cons.inj heq).1 hminus
    · rename_i heq; exact absurd (List.cons.inj heq).1 hplus
    · rfl
  have hm0 : hasMinus (c :: rest) = false := by
    unfold hasMinus
    split
    · rename_i heq; exact absurd (List.cons.inj heq).1 hminus
    · rfl
  unfold Itoa
  by_cases hneg : N < 0
  · rw [if_pos hneg, hd]
    unfold Atoi
    have hs1 : dropSign ('-' :: c :: rest) = c :: rest := rfl
    have hm1 : hasMinus ('-' :: c :: rest) = true := rfl
    rw [hs1, hm1, if_neg (by simp)]
    rw [hd] at hp
    simp only [hp, if_true]
    rw [if_neg (by omega)]
    congr 1
    omega
  · rw [if_neg hneg, hd]
    unfold Atoi
    rw [hs0, hm0, if_neg (by simp)]
    rw [hd] at hp
    simp only [hp]
    rw [if_neg (by simp), if_neg (by omega)]
    congr 1
    omega


/-- Model check of `strconv`: `Atoi` returns the integer the numeral denotes
when it is within the `int` range, the nearest bound with a range error when
it is not, and a syntax error for a string that is no numeral. -/
theorem Atoi_eq_of_numeralValue (s : GoString) :
    Atoi s = match numeralValue s with
      | none => (0, some NumError.errSyntax)
      | some v =>
        if v < minInt then (minInt, some NumError.errRange)
        else if maxInt < v then (maxInt, some NumError.errRange)
        else (v, none) := by
  have hm := maxInt_val
  have hn := minInt_val
  unfold Atoi numeralValue
  by_cases h0 : dropSign s = []
  · simp [h0]
  · rw [if_neg h0, if_neg h0]
    cases hp : parseDigits 0 (dropSign s) with
    | none => simp
    | some n =>
      simp only [Option.map_some']
      by_cases hneg : hasMinus s = true
      · simp only [hneg, if_true]
        by_cases h1 : -(n : Int) < minInt
        · rw [if_pos h1, if_pos h1]
        · rw [if_neg h1, if_neg h1, if_neg (by omega)]
      · simp only [hneg]
        by_cases h1 : maxInt < (n : Int)
        · simp only [Bool.false_eq_true, if_false]
          rw [if_pos h1, if_neg (by omega)]
        · simp only [Bool.false_eq_true, if_false]
          rw [if_neg h1, if_neg (by omega)]

/-- A numeral whose value is within the `int` range is parsed to that value. -/
theorem Atoi_of_numeralValue {s : GoString} {N : Int} (h : numeralValue s = some N)
    (h1 : minInt ≤ N) (h2 : N ≤ maxInt) : Atoi s = (N, none) := by
  rw [Atoi_eq_of_numeralValue, h]
  simp only []
  rw [if_neg (by omega), if_neg (by omega)]

/-- The empty string, a string that is no numeral and a numeral of value below
1 all make `Atoi` report an error or return a value below 1. -/
theorem Atoi_default_cases (s : GoString)
    (h : s = [] ∨ numeralValue s = none ∨ ∃ v : Int, numeralValue s = some v ∧ v < 1) :
    (Atoi s).2 ≠ none ∨ (Atoi s).1 < 1 := by
  have hm := maxInt_val
  have hn := minInt_val
  rw [Atoi_eq_of_numeralValue]
  rcases h with rfl | h | ⟨v, h, hv⟩
  · left
    decide
  · left
    rw [h]
    simp
  · rw [h]
    simp only []
    by_cases h1 : v < minInt
    · left
      rw [if_pos h1]
      simp
    · right
      rw [if_neg h1, if_neg (by omega)]
      exact hv

/-- The page number taken from the query is at least 1 and within the `int` range. -/
theorem requestedPage_range (s : GoString) :
    1 ≤ requestedPage s ∧ requestedPage s ≤ maxInt := by
  unfold requestedPage
  have hm := maxInt_val
  simp only []
  split
  · omega
  · rename_i h
    push_neg at h
    have := Atoi_range s (by simpa using h.1)
    omega

/-- A page parameter that parses to `N ≥ 1` requests page `N`. -/
theorem requestedPage_of_ok {s : GoString} {N : Int} (h : Atoi s = (N, none)) (h1 : 1 ≤ N) :
    requestedPage s = N := by
  unfold requestedPage
  simp [h]
  omega

/-- A page parameter that fails to parse, or parses below 1, requests page 1. -/
theorem requestedPage_of_default {s : GoString} (h : (Atoi s).2 ≠ none ∨ (Atoi s).1 < 1) :
    requestedPage s = 1 := by
  unfold requestedPage
  simp only []
  rw [if_pos h]

/-- The value of `start` without overflow. -/
theorem sliceStart_eq {page : Int} (h1 : 1 ≤ page) (h2 : 3 * page ≤ maxInt) :
    sliceStart page = (page - 1) * 3 := by
  have hm := maxInt_val
  have hn := minInt_val
  unfold sliceStart
  simp only [friendsPerPage]
  rw [isub_of_range (by omega) (by omega), imul_of_range (by omega) (by omega)]

/-- The value of `end` without overflow. -/
theorem sliceEnd_eq {page len : Int} (h1 : 1 ≤ page) (h2 : 3 * page ≤ maxInt) :
    sliceEnd page len = min (page * 3) len := by
  have hm := maxInt_val
  have hn := minInt_val
  unfold sliceEnd
  simp only [friendsPerPage]
  rw [sliceStart_eq h1 h2, iadd_of_range (by omega) (by omega)]
  split <;> omega

/-- For a page number within `1..ceil(len/3)` the handler renders the index
template with the page view `pageViewSpec`. -/
theorem friendsPage_in_range (fuel : Nat) (r : Request) (page : Int) (friends : List HTML)
    (hfuel : 4 ≤ fuel) (hlen : (friends.length : Int) + friendsPerPage - 1 ≤ maxInt)
    (h1 : 1 ≤ page) (h2 : page ≤ ceilThird friends.length) :
    friendsPage fuel r page friends
      = Outcome.render indexTmpl (some (pageViewSpec r page friends)) StatusOK := by
  have hm := maxInt_val
  have hn := minInt_val
  have hT := totalPagesOf_eq_ceilThird friends.length hlen
  have hc := ceilThird_eq friends.length
  simp only [friendsPerPage] at hlen
  unfold friendsPage pageViewSpec
  simp only [hT]
  generalize ceilThird friends.length = T at *
  have h3 : 3 * page ≤ (friends.length : Int) + 2 := by omega
  rw [if_neg (by omega), getPageRanges_eq fuel page T hfuel h1 h2 (by omega)]
  simp only []
  rw [sliceStart_eq h1 (by omega), sliceEnd_eq h1 (by omega)]
  have hs : sliceExpr friends ((page - 1) * 3) (min (page * 3) (friends.length : Int))
      = some (subList friends ((page - 1) * 3) (min (page * 3) (friends.length : Int))) := by
    unfold sliceExpr subList
    rw [if_pos (by omega)]
  rw [hs]
  simp only []
  rw [isub_of_range (by omega) (by omega), iadd_of_range (by omega) (by omega)]

/-- A page number above the page count takes the not-found branch. -/
theorem friendsPage_beyond (fuel : Nat) (r : Request) (page : Int) (friends : List HTML)
    (h : totalPagesOf (friends.length : Int) < page) :
    friendsPage fuel r page friends = Outcome.render notFoundTmpl none StatusSeeOther := by
  unfold friendsPage
  simp only []
  rw [if_pos h]

/-- Once the entries are read, `friendsHandler` is `friendsPage` at the
requested page. -/
theorem friendsHandler_of_read (fuel : Nat) (content : FS) (r : Request) (entries : List HTML)
    (h : getFriendsFromTextFile content friendsFile = some entries) :
    friendsHandler fuel content r = friendsPage fuel r (requestedPage r.page) entries := by
  unfold friendsHandler
  simp only [h]

/-- The slice of page `k + 1` is the `k`-th chunk of three entries. -/
theorem subList_page {α : Type} (l : List α) (k : Nat) :
    subList l (((k : Int) + 1 - 1) * 3) (min (((k : Int) + 1) * 3) (l.length : Int))
      = (l.drop (3 * k)).take 3 := by
  unfold subList
  have e1 : (((k : Int) + 1 - 1) * 3).toNat = 3 * k := by omega
  have e2 : (min (((k : Int) + 1) * 3) (l.length : Int)).toNat = min (3 * k + 3) l.length := by
    omega
  have e3 : l.take (min (3 * k + 3) l.length) = l.take (3 * k + 3) := by
    rw [List.take_eq_take]
    omega
  rw [e1, e2, e3, List.take_drop]

/-- The first `T` chunks of three, concatenated, are the first `3 * T` entries. -/
theorem flatten_pages {α : Type} (l : List α) (T : Nat) :
    ((List.range T).map (fun k => (l.drop (3 * k)).take 3)).flatten = l.take (3 * T) := by
  induction T with
  | zero => simp
  | succ T ih =>
    rw [List.range_succ, List.map_append, List.flatten_append, ih]
    simp only [List.map_cons, List.map_nil, List.flatten_cons, List.flatten_nil,
      List.append_nil]
    rw [Nat.mul_succ, List.take_add]

/-- Replacing the one-character string `"\n"` acts character by character. -/
theorem replaceAux_newline (new s : GoString) :
    replaceAux ['\n'] new s 0 = s.flatMap (fun c => if c = '\n' then new else [c]) := by
  induction s with
  | nil => simp [replaceAux]
  | cons c rest ih =>
    rw [replaceAux]
    by_cases hc : c = '\n'
    · subst hc
      simp [List.isPrefixOf, ih]
    · have hc2 : ¬ '\n' = c := fun h => hc h.symm
      simp [List.isPrefixOf, ih, hc, hc2]

/-- The call `strings.ReplaceAll(s, "\n", "<br>")` is `brLines s`. -/
theorem ReplaceAll_newline (s : GoString) :
    ReplaceAll s "\n".toList "<br>".toList = brLines s := by
  unfold ReplaceAll brLines
  exact replaceAux_newline _ s

/-- The append loop of `getFriendsFromTextFile` is a map, a filter and a map. -/
theorem foldl_friendsStep (blocks : List GoString) : ∀ acc : List HTML,
    blocks.foldl friendsStep acc
      = acc ++ ((blocks.map TrimSpace).filter (fun t => t ≠ [])).map brLines := by
  induction blocks with
  | nil => intro acc; simp
  | cons b bs ih =>
    intro acc
    rw [List.foldl_cons, ih]
    unfold friendsStep
    by_cases hb : TrimSpace b = []
    · simp [hb]
    · have e := ReplaceAll_newline (TrimSpace b)
      simp only [String.toList] at e
      simp [hb, e]

/-- A character that is not white space is not the newline. -/
theorem not_space_ne_newline {c : Char} (h : IsSpace c = false) : c ≠ '\n' := by
  rintro rfl
  revert h
  decide

/-- A non-empty trimmed string does not start with white space. -/
theorem TrimSpace_head (s : GoString) (h : TrimSpace s ≠ []) :
    IsSpace ((TrimSpace s).head h) = false := by
  unfold TrimSpace at h ⊢
  obtain ⟨t, ht⟩ := List.rdropWhile_prefix IsSpace (l := s.dropWhile IsSpace)
  have hne : s.dropWhile IsSpace ≠ [] := by
    intro h0
    rw [h0] at h
    simp [List.rdropWhile] at h
  have h1 := List.head_dropWhile_not IsSpace s hne
  have e : (List.rdropWhile IsSpace (s.dropWhile IsSpace)).head h
      = (s.dropWhile IsSpace).head hne := by
    have : (List.rdropWhile IsSpace (s.dropWhile IsSpace) ++ t).head (by simp [h])
        = (s.dropWhile IsSpace).head hne := by
      congr 1
    rw [← this, List.head_append_of_ne_nil]
  rw [e]
  simpa using h1

/-- A non-empty trimmed string does not end with white space. -/
theorem TrimSpace_getLast (s : GoString) (h : TrimSpace s ≠ []) :
    IsSpace ((TrimSpace s).getLast h) = false := by
  unfold TrimSpace at h ⊢
  have := List.rdropWhile_last_not IsSpace (s.dropWhile IsSpace) h
  simpa using this

/-- A leading character other than the newline is kept by `brLines`. -/
theorem brLines_cons_of_ne (c : Char) (rest : GoString) (hc : c ≠ '\n') :
    brLines (c :: rest) = c :: brLines rest := by
  simp [brLines, hc]

/-- The replacement `brLines` distributes over concatenation. -/
theorem brLines_append (a b : GoString) : brLines (a ++ b) = brLines a ++ brLines b := by
  simp [brLines]

/-- No newline is left after the replacement. -/
theorem brLines_no_newline (s : GoString) : '\n' ∉ brLines s := by
  unfold brLines
  rw [List.mem_flatMap]
  rintro ⟨c, _, hc⟩
  by_cases h : c = '\n'
  · rw [if_pos h] at hc
    revert hc
    decide
  · rw [if_neg h] at hc
    simp at hc
    exact h hc.symm

/-- The replacement keeps a non-space first and last character in place. -/
theorem brLines_of_trimmed (t : GoString) (h : t ≠ [])
    (hhead : IsSpace (t.head h) = false) (hlast : IsSpace (t.getLast h) = false) :
    ∃ h2 : brLines t ≠ [],
      IsSpace ((brLines t).head h2) = false ∧ IsSpace ((brLines t).getLast h2) = false := by
  have hh : brLines t = t.head h :: brLines t.tail := by
    conv_lhs => rw [← List.head_cons_tail t h]
    exact brLines_cons_of_ne _ _ (not_space_ne_newline hhead)
  have hl : brLines t = brLines t.dropLast ++ [t.getLast h] := by
    conv_lhs => rw [← List.dropLast_append_getLast h]
    rw [brLines_append]
    congr 1
    rw [brLines_cons_of_ne _ _ (not_space_ne_newline hlast)]
    simp [brLines]
  have h2 : brLines t ≠ [] := by rw [hh]; simp
  refine ⟨h2, ?_, ?_⟩
  · simp only [hh, List.head_cons]
    exact hhead
  · have : (brLines t).getLast h2 = t.getLast h := by
      simp only [hl]
      simp
    rw [this]
    exact hlast

/-- When `templates/500.html` itself fails to load, to parse or to execute, the
server-error handler and `renderTemplate` on that template call each other
until the fuel is gone, whatever the fuel. -/
theorem errorHandler_never_returns (env : Env)
    (h : env.content errorTmpl = none ∨
      (∃ c, env.content errorTmpl = some c ∧ env.parse c = none) ∨
      (∃ c t, env.content errorTmpl = some c ∧ env.parse c = some t ∧
        (t.exec none).2 = false)) :
    ∀ (fuel : Nat) (w : ResponseWriter),
      internalServerErrorHandler fuel env w = none ∧
      renderTemplate fuel env w errorTmpl none StatusInternalServerError = none := by
  intro fuel
  induction fuel with
  | zero =>
    intro w
    exact ⟨by rw [internalServerErrorHandler], by rw [renderTemplate]⟩
  | succ f ih =>
    intro w
    constructor
    · rw [internalServerErrorHandler]
      exact (ih w).2
    · rw [renderTemplate]
      rcases h with h | ⟨c, hc, hp⟩ | ⟨c, t, hc, hp, he⟩
      · simp only [h]
        exact (ih w).1
      · simp only [hc, hp]
        exact (ih w).1
      · simp only [hc, hp, he]
        exact (ih _).1

/-! ## The claims -/

/-- C1: for every list of entries and every page number `N` with
`1 ≤ N ≤ ceil(len(entries)/3)`, `friendsHandler` renders the index template
with a page view whose `Friends` field is `entries[(N-1)*3 : min(N*3, len(entries))]`
and whose `CurrentPage` is `N`. -/
theorem friendsHandler_page_slice (fuel : Nat) (content : FS) (r : Request)
    (entries : List HTML) (N : Int) (hfuel : 4 ≤ fuel)
    (hread : getFriendsFromTextFile content friendsFile = some entries)
    (hlen : (entries.length : Int) + friendsPerPage - 1 ≤ maxInt)
    (hpage : Atoi r.page = (N, none)) (h1 : 1 ≤ N) (h2 : N ≤ ceilThird entries.length) :
    ∃ data : PageData,
      friendsHandler fuel content r = Outcome.render indexTmpl (some data) StatusOK ∧
      data.Friends = subList entries ((N - 1) * 3) (min (N * 3) (entries.length : Int)) ∧
      data.CurrentPage = N := by
  refine ⟨pageViewSpec r N entries, ?_, rfl, rfl⟩
  rw [friendsHandler_of_read fuel content r entries hread, requestedPage_of_ok hpage h1]
  exact friendsPage_in_range fuel r N entries hfuel hlen h1 h2

/-- C1, witness: page 2 of the four sample entries. -/
theorem friendsHandler_page_slice_witness :
    (4 ≤ 4) ∧ getFriendsFromTextFile demoStore friendsFile = some demoEntries ∧
    ((demoEntries.length : Int) + friendsPerPage - 1 ≤ maxInt) ∧
    Atoi (demoRequest "2").page = (2, none) ∧ ((1 : Int) ≤ 2) ∧
    ((2 : Int) ≤ ceilThird demoEntries.length) ∧
    ∃ data : PageData,
      friendsHandler 4 demoStore (demoRequest "2")
        = Outcome.render indexTmpl (some data) StatusOK ∧
      data.Friends = subList demoEntries ((2 - 1) * 3) (min (2 * 3) (demoEntries.length : Int)) ∧
      data.CurrentPage = 2 :=
  ⟨by decide, by decide, by decide, by decide, by decide, by simp [ceilThird_eq, demoEntries],
    friendsHandler_page_slice 4 demoStore (demoRequest "2") demoEntries 2 (by decide) (by decide)
      (by decide) (by decide) (by decide) (by simp [ceilThird_eq, demoEntries])⟩

/-- C2, counterexample: the page parameter `9223372036854775808` denotes an
integer above the page count of a four-entry list, yet `strconv.Atoi` reports
a range error for it, `friendsHandler` falls back to page 1 and renders the
index template with a page view instead of the not-found template. -/
theorem friendsHandler_huge_page_not_notFound :
    numeralValue (demoRequest "9223372036854775808").page = some 9223372036854775808 ∧
    getFriendsFromTextFile demoStore friendsFile = some demoEntries ∧
    ceilThird demoEntries.length < 9223372036854775808 ∧
    friendsHandler 4 demoStore (demoRequest "9223372036854775808")
      ≠ Outcome.render notFoundTmpl none StatusSeeOther ∧
    ∃ data : PageData,
      friendsHandler 4 demoStore (demoRequest "9223372036854775808")
        = Outcome.render indexTmpl (some data) StatusOK ∧ data.CurrentPage = 1 := by
  refine ⟨by decide, by decide, by simp [ceilThird_eq, demoEntries], by decide, ?_⟩
  refine ⟨pageViewSpec (demoRequest "9223372036854775808") 1 demoEntries, ?_, rfl⟩
  rw [friendsHandler_of_read 4 demoStore _ demoEntries (by decide),
    requestedPage_of_default (by decide)]
  exact friendsPage_in_range 4 _ 1 demoEntries (by decide) (by decide) (by decide)
    (by simp [ceilThird_eq, demoEntries])

/-- C2, amended: for every request whose page parameter denotes an integer
that is greater than `ceil(len(entries)/3)` and no larger than the largest
`int`, and for every request when the entry list is empty, `friendsHandler`
renders `templates/404.html` with no page data. -/
theorem friendsHandler_notFound (fuel : Nat) (content : FS) (r : Request)
    (entries : List HTML) (N : Int)
    (hread : getFriendsFromTextFile content friendsFile = some entries)
    (hlen : (entries.length : Int) + friendsPerPage - 1 ≤ maxInt)
    (hpage : (numeralValue r.page = some N ∧ ceilThird entries.length < N ∧ N ≤ maxInt)
      ∨ entries = []) :
    friendsHandler fuel content r = Outcome.render notFoundTmpl none StatusSeeOther := by
  have hn := minInt_val
  rw [friendsHandler_of_read fuel content r entries hread]
  apply friendsPage_beyond
  rw [totalPagesOf_eq_ceilThird _ hlen]
  have hc := ceilThird_eq entries.length
  rcases hpage with ⟨hp, hN, hmax⟩ | hnil
  · rw [requestedPage_of_ok (Atoi_of_numeralValue hp (by omega) hmax) (by omega)]
    exact hN
  · have := (requestedPage_range r.page).1
    subst hnil
    simp only [List.length_nil] at hc ⊢
    omega

/-- C2, witness: page 3 of the four sample entries, which fill two pages. -/
theorem friendsHandler_notFound_witness :
    getFriendsFromTextFile demoStore friendsFile = some demoEntries ∧
    ((demoEntries.length : Int) + friendsPerPage - 1 ≤ maxInt) ∧
    ((numeralValue (demoRequest "3").page = some 3 ∧ ceilThird demoEntries.length < 3
        ∧ (3 : Int) ≤ maxInt) ∨ demoEntries = []) ∧
    friendsHandler 4 demoStore (demoRequest "3")
      = Outcome.render notFoundTmpl none StatusSeeOther :=
  ⟨by decide, by decide,
    Or.inl ⟨by decide, by simp [ceilThird_eq, demoEntries], by decide⟩,
    friendsHandler_notFound 4 demoStore (demoRequest "3") demoEntries 3 (by decide) (by decide)
      (Or.inl ⟨by decide, by simp [ceilThird_eq, demoEntries], by decide⟩)⟩

/-- C3: for every request whose page parameter makes `strconv.Atoi` report an
error or return an integer below 1 (which is the case when the parameter is the
empty string, is not a numeral, or denotes an integer less than 1),
`friendsHandler` uses page 1: when at least one entry exists it renders a page
view with `CurrentPage = 1`, `PrevPage = 0` and `Friends` the first
`min(3, len(entries))` entries. -/
theorem friendsHandler_default_page (fuel : Nat) (content : FS) (r : Request)
    (entries : List HTML) (hfuel : 4 ≤ fuel)
    (hread : getFriendsFromTextFile content friendsFile = some entries)
    (hlen : (entries.length : Int) + friendsPerPage - 1 ≤ maxInt)
    (hpage : (Atoi r.page).2 ≠ none ∨ (Atoi r.page).1 < 1) (hne : entries ≠ []) :
    (∀ s : GoString,
      (s = [] ∨ numeralValue s = none ∨ ∃ v : Int, numeralValue s = some v ∧ v < 1) →
        ((Atoi s).2 ≠ none ∨ (Atoi s).1 < 1)) ∧
    ∃ data : PageData,
      friendsHandler fuel content r = Outcome.render indexTmpl (some data) StatusOK ∧
      data.CurrentPage = 1 ∧ data.PrevPage = 0 ∧
      data.Friends = entries.take (min 3 entries.length) := by
  refine ⟨Atoi_default_cases, pageViewSpec r 1 entries, ?_, rfl, rfl, ?_⟩
  · rw [friendsHandler_of_read fuel content r entries hread, requestedPage_of_default hpage]
    have hc := ceilThird_eq entries.length
    have hpos : 0 < entries.length := List.length_pos.mpr hne
    exact friendsPage_in_range fuel r 1 entries hfuel hlen (by decide) (by omega)
  · simp only [pageViewSpec, subList]
    have e : (min ((1 : Int) * 3) (entries.length : Int)).toNat = min 3 entries.length := by omega
    rw [e]
    simp

/-- C3, witness: the page parameter `abc` on the four sample entries. -/
theorem friendsHandler_default_page_witness :
    (4 ≤ 4) ∧ getFriendsFromTextFile demoStore friendsFile = some demoEntries ∧
    ((demoEntries.length : Int) + friendsPerPage - 1 ≤ maxInt) ∧
    ((Atoi (demoRequest "abc").page).2 ≠ none ∨ (Atoi (demoRequest "abc").page).1 < 1) ∧
    demoEntries ≠ [] ∧
    ((∀ s : GoString,
      (s = [] ∨ numeralValue s = none ∨ ∃ v : Int, numeralValue s = some v ∧ v < 1) →
        ((Atoi s).2 ≠ none ∨ (Atoi s).1 < 1)) ∧
    ∃ data : PageData,
      friendsHandler 4 demoStore (demoRequest "abc")
        = Outcome.render indexTmpl (some data) StatusOK ∧
      data.CurrentPage = 1 ∧ data.PrevPage = 0 ∧
      data.Friends = demoEntries.take (min 3 demoEntries.length)) :=
  ⟨by decide, by decide, by decide, by decide, by decide,
    friendsHandler_default_page 4 demoStore (demoRequest "abc") demoEntries (by decide)
      (by decide) (by decide) (by decide) (by decide)⟩

/-- C4: for every entry count `n` (the length of a slice, so that `n + 3 - 1`
is within the `int` range), the page count `(n + 3 - 1) / 3` computed by
`friendsHandler` equals `ceil(n / 3)`, the least integer `t` with `3 * t ≥ n`;
for `n = 7` it is 3. -/
theorem totalPagesOf_is_ceil (n : Nat) (hlen : (n : Int) + friendsPerPage - 1 ≤ maxInt) :
    totalPagesOf (n : Int) = ⌈(n : ℚ) / 3⌉ ∧
    (n : Int) ≤ 3 * totalPagesOf (n : Int) ∧
    (∀ t : Int, (n : Int) ≤ 3 * t → totalPagesOf (n : Int) ≤ t) ∧
    totalPagesOf 7 = 3 := by
  have h := totalPagesOf_eq_ceilThird n hlen
  have hc := ceilThird_eq n
  rw [h]
  refine ⟨rfl, by omega, ?_, by decide⟩
  intro t ht
  omega

/-- C4, witness: seven entries. -/
theorem totalPagesOf_is_ceil_witness :
    (((7 : Nat) : Int) + friendsPerPage - 1 ≤ maxInt) ∧
    (totalPagesOf ((7 : Nat) : Int) = ⌈((7 : Nat) : ℚ) / 3⌉ ∧
    ((7 : Nat) : Int) ≤ 3 * totalPagesOf ((7 : Nat) : Int) ∧
    (∀ t : Int, ((7 : Nat) : Int) ≤ 3 * t → totalPagesOf ((7 : Nat) : Int) ≤ t) ∧
    totalPagesOf 7 = 3) :=
  ⟨by decide, totalPagesOf_is_ceil 7 (by decide)⟩

/-- C5, counterexample: for `currentPage = totalPages = 9223372036854775807`,
the largest `int`, `pageStart + 2` overflows to a negative `pageEnd`, the loop
body never runs, and `getPageRanges` returns the empty list, which has no
element and does not contain the decimal string of `currentPage`. -/
theorem getPageRanges_maxInt_empty :
    (1 : Int) ≤ 9223372036854775807 ∧ (9223372036854775807 : Int) ≤ 9223372036854775807 ∧
    (9223372036854775807 : Int) = maxInt ∧
    iadd (iadd (imul (idiv (isub 9223372036854775807 1) 3) 3) 1) 2 = -9223372036854775807 ∧
    getPageRanges 4 9223372036854775807 9223372036854775807 = some [] ∧
    ¬ ∃ (fuel : Nat) (l : List GoString),
      getPageRanges fuel 9223372036854775807 9223372036854775807 = some l ∧ 1 ≤ l.length := by
  refine ⟨by decide, by decide, by decide, by decide, by decide, ?_⟩
  rintro ⟨fuel, l, h, hl⟩
  cases fuel with
  | zero => simp [getPageRanges, pageRangesLoop] at h
  | succ f =>
    have e : getPageRanges (f + 1) 9223372036854775807 9223372036854775807 = some [] := by
      unfold getPageRanges
      simp only []
      have e1 : iadd (imul (idiv (isub 9223372036854775807 1) 3) 3) 1 = 9223372036854775807 := by
        decide
      rw [e1]
      have e2 : iadd 9223372036854775807 2 = -9223372036854775807 := by decide
      rw [e2]
      simp [pageRangesLoop]
    rw [e] at h
    cases h
    simp at hl

/-- C5, amended: for every `currentPage` and `totalPages` with
`1 ≤ currentPage ≤ totalPages` and `currentPage` below the largest `int`,
`getPageRanges` returns the decimal strings of `s, s+1, ..., min(s+2, totalPages)`
where `s = 3 * floor((currentPage-1)/3) + 1`; the list has between 1 and 3
elements and contains the decimal string of `currentPage`. For `currentPage = 5`
and `totalPages = 10` the result is `["4","5","6"]`. -/
theorem getPageRanges_window (fuel : Nat) (currentPage totalPages : Int) (hfuel : 4 ≤ fuel)
    (h1 : 1 ≤ currentPage) (h2 : currentPage ≤ totalPages) (h3 : currentPage < maxInt) :
    ∃ l : List GoString,
      getPageRanges fuel currentPage totalPages = some l ∧
      l = decimalRun (3 * ((currentPage - 1) / 3) + 1)
            (min (3 * ((currentPage - 1) / 3) + 1 + 2) totalPages) ∧
      1 ≤ l.length ∧ l.length ≤ 3 ∧ Itoa currentPage ∈ l ∧
      getPageRanges fuel 5 10 = some ["4".toList, "5".toList, "6".toList] := by
  refine ⟨_, getPageRanges_eq fuel currentPage totalPages hfuel h1 h2 h3, rfl, ?_, ?_, ?_, ?_⟩
  · simp only [decimalRun, List.length_map, List.length_range]
    omega
  · simp only [decimalRun, List.length_map, List.length_range]
    omega
  · simp only [decimalRun, List.mem_map, List.mem_range]
    refine ⟨(currentPage - (3 * ((currentPage - 1) / 3) + 1)).toNat, by omega, ?_⟩
    congr 1
    omega
  · rw [getPageRanges_eq fuel 5 10 hfuel (by decide) (by decide) (by decide)]
    decide

/-- C5, witness: page 7 of 8. -/
theorem getPageRanges_window_witness :
    (4 ≤ 4) ∧ ((1 : Int) ≤ 7) ∧ ((7 : Int) ≤ 8) ∧ ((7 : Int) < maxInt) ∧
    ∃ l : List GoString,
      getPageRanges 4 7 8 = some l ∧
      l = decimalRun (3 * ((7 - 1) / 3) + 1) (min (3 * ((7 - 1) / 3) + 1 + 2) 8) ∧
      1 ≤ l.length ∧ l.length ≤ 3 ∧ Itoa 7 ∈ l ∧
      getPageRanges 4 5 10 = some ["4".toList, "5".toList, "6".toList] :=
  ⟨by decide, by decide, by decide, by decide,
    getPageRanges_window 4 7 8 (by decide) (by decide) (by decide) (by decide)⟩

/-- C6: for every page `N` with `1 ≤ N ≤ totalPages`, the page view built by
`friendsHandler` has `PrevPage = N-1` if `N > 1` and `0` if `N = 1`, and
`NextPage = N+1` if `N < totalPages` and `0` if `N = totalPages`; a non-zero
`PrevPage` or `NextPage` is a page number in `1..totalPages`. -/
theorem friendsHandler_prev_next (fuel : Nat) (content : FS) (r : Request)
    (entries : List HTML) (N : Int) (hfuel : 4 ≤ fuel)
    (hread : getFriendsFromTextFile content friendsFile = some entries)
    (hlen : (entries.length : Int) + friendsPerPage - 1 ≤ maxInt)
    (hpage : Atoi r.page = (N, none)) (h1 : 1 ≤ N) (h2 : N ≤ ceilThird entries.length) :
    ∃ data : PageData,
      friendsHandler fuel content r = Outcome.render indexTmpl (some data) StatusOK ∧
      (1 < N → data.PrevPage = N - 1) ∧ (N = 1 → data.PrevPage = 0) ∧
      (N < ceilThird entries.length → data.NextPage = N + 1) ∧
      (N = ceilThird entries.length → data.NextPage = 0) ∧
      (data.PrevPage ≠ 0 → 1 ≤ data.PrevPage ∧ data.PrevPage ≤ ceilThird entries.length) ∧
      (data.NextPage ≠ 0 → 1 ≤ data.NextPage ∧ data.NextPage ≤ ceilThird entries.length) := by
  refine ⟨pageViewSpec r N entries, ?_, ?_, ?_, ?_, ?_, ?_, ?_⟩
  · rw [friendsHandler_of_read fuel content r entries hread, requestedPage_of_ok hpage h1]
    exact friendsPage_in_range fuel r N entries hfuel hlen h1 h2
  all_goals simp only [pageViewSpec]
  all_goals generalize ceilThird entries.length = T at *
  · intro h; rw [if_pos (by omega)]
  · intro h; rw [if_neg (by omega)]
  · intro h; rw [if_pos h]
  · intro h; rw [if_neg (by omega)]
  · split <;> omega
  · split <;> omega

/-- C6, witness: page 1 of the four sample entries. -/
theorem friendsHandler_prev_next_witness :
    (4 ≤ 4) ∧ getFriendsFromTextFile demoStore friendsFile = some demoEntries ∧
    ((demoEntries.length : Int) + friendsPerPage - 1 ≤ maxInt) ∧
    Atoi (demoRequest "1").page = (1, none) ∧ ((1 : Int) ≤ 1) ∧
    ((1 : Int) ≤ ceilThird demoEntries.length) ∧
    ∃ data : PageData,
      friendsHandler 4 demoStore (demoRequest "1")
        = Outcome.render indexTmpl (some data) StatusOK ∧
      ((1 : Int) < 1 → data.PrevPage = 1 - 1) ∧ ((1 : Int) = 1 → data.PrevPage = 0) ∧
      (1 < ceilThird demoEntries.length → data.NextPage = 1 + 1) ∧
      (1 = ceilThird demoEntries.length → data.NextPage = 0) ∧
      (data.PrevPage ≠ 0 → 1 ≤ data.PrevPage ∧ data.PrevPage ≤ ceilThird demoEntries.length) ∧
      (data.NextPage ≠ 0 → 1 ≤ data.NextPage ∧ data.NextPage ≤ ceilThird demoEntries.length) :=
  ⟨by decide, by decide, by decide, by decide, by decide, by simp [ceilThird_eq, demoEntries],
    friendsHandler_prev_next 4 demoStore (demoRequest "1") demoEntries 1 (by decide) (by decide)
      (by decide) (by decide) (by decide) (by simp [ceilThird_eq, demoEntries])⟩

/-- C10: for every page-parameter string and every list of entries,
`friendsHandler` either takes the not-found branch or reaches the slice
expression `friends[start:end]` with `0 ≤ start ≤ end ≤ len(friends)` and
renders the page view; it never panics. -/
theorem friendsHandler_slice_in_bounds (fuel : Nat) (content : FS) (r : Request)
    (entries : List HTML) (hfuel : 4 ≤ fuel)
    (hread : getFriendsFromTextFile content friendsFile = some entries)
    (hlen : (entries.length : Int) + friendsPerPage - 1 ≤ maxInt) :
    friendsHandler fuel content r ≠ Outcome.panic ∧
    (friendsHandler fuel content r = Outcome.render notFoundTmpl none StatusSeeOther ∨
      (0 ≤ sliceStart (requestedPage r.page) ∧
        sliceStart (requestedPage r.page)
          ≤ sliceEnd (requestedPage r.page) (entries.length : Int) ∧
        sliceEnd (requestedPage r.page) (entries.length : Int) ≤ (entries.length : Int) ∧
        ∃ data : PageData,
          sliceExpr entries (sliceStart (requestedPage r.page))
            (sliceEnd (requestedPage r.page) (entries.length : Int)) = some data.Friends ∧
          friendsHandler fuel content r = Outcome.render indexTmpl (some data) StatusOK)) := by
  have hm := maxInt_val
  have hr := requestedPage_range r.page
  have hT := totalPagesOf_eq_ceilThird entries.length hlen
  have hc := ceilThird_eq entries.length
  rw [friendsHandler_of_read fuel content r entries hread]
  generalize requestedPage r.page = page at *
  by_cases hp : totalPagesOf (entries.length : Int) < page
  · rw [friendsPage_beyond fuel r page entries hp]
    exact ⟨by simp, Or.inl rfl⟩
  · have h2 : page ≤ ceilThird entries.length := by omega
    rw [friendsPage_in_range fuel r page entries hfuel hlen hr.1 h2]
    simp only [friendsPerPage] at hlen
    have h3 : 3 * page ≤ maxInt := by omega
    refine ⟨by simp, Or.inr ?_⟩
    rw [sliceStart_eq hr.1 h3, sliceEnd_eq hr.1 h3]
    refine ⟨by omega, by omega, by omega, pageViewSpec r page entries, ?_, rfl⟩
    simp only [sliceExpr, pageViewSpec, subList]
    rw [if_pos (by omega)]

/-- C10, witness: a page parameter beyond the `int` range on the four sample
entries. -/
theorem friendsHandler_slice_in_bounds_witness :
    (4 ≤ 4) ∧ getFriendsFromTextFile demoStore friendsFile = some demoEntries ∧
    ((demoEntries.length : Int) + friendsPerPage - 1 ≤ maxInt) ∧
    friendsHandler 4 demoStore (demoRequest "99999999999999999999") ≠ Outcome.panic ∧
    (friendsHandler 4 demoStore (demoRequest "99999999999999999999")
        = Outcome.render notFoundTmpl none StatusSeeOther ∨
      (0 ≤ sliceStart (requestedPage (demoRequest "99999999999999999999").page) ∧
        sliceStart (requestedPage (demoRequest "99999999999999999999").page)
          ≤ sliceEnd (requestedPage (demoRequest "99999999999999999999").page) (demoEntries.length : Int) ∧
        sliceEnd (requestedPage (demoRequest "99999999999999999999").page) (demoEntries.length : Int)
          ≤ (demoEntries.length : Int) ∧
        ∃ data : PageData,
          sliceExpr demoEntries (sliceStart (requestedPage (demoRequest "99999999999999999999").page))
            (sliceEnd (requestedPage (demoRequest "99999999999999999999").page) (demoEntries.length : Int))
              = some data.Friends ∧
          friendsHandler 4 demoStore (demoRequest "99999999999999999999")
            = Outcome.render indexTmpl (some data) StatusOK)) :=
  ⟨by decide, by decide, by decide,
    friendsHandler_slice_in_bounds 4 demoStore (demoRequest "99999999999999999999") demoEntries (by decide)
      (by decide) (by decide)⟩

/-- C9: for every list of entries, the `Friends` slices that `friendsHandler`
produces for pages `1, 2, ..., ceil(len(entries)/3)` (page `k + 1` is requested
by `req k`), concatenated in page order, are the full entry list; every such
page is non-empty with at most 3 entries and every page but the last has
exactly 3. -/
theorem friendsHandler_pages_partition (fuel : Nat) (content : FS) (req : Nat → Request)
    (entries : List HTML) (hfuel : 4 ≤ fuel)
    (hread : getFriendsFromTextFile content friendsFile = some entries)
    (hlen : (entries.length : Int) + friendsPerPage - 1 ≤ maxInt)
    (hreq : ∀ k : Nat, (k : Int) < ceilThird entries.length →
      Atoi (req k).page = ((k : Int) + 1, none)) :
    ∃ shown : Nat → List HTML,
      (∀ k : Nat, (k : Int) < ceilThird entries.length →
        ∃ data : PageData,
          friendsHandler fuel content (req k)
            = Outcome.render indexTmpl (some data) StatusOK ∧
          data.CurrentPage = (k : Int) + 1 ∧ data.Friends = shown k) ∧
      ((List.range (ceilThird entries.length).toNat).map shown).flatten = entries ∧
      (∀ k : Nat, (k : Int) < ceilThird entries.length →
        1 ≤ (shown k).length ∧ (shown k).length ≤ 3) ∧
      (∀ k : Nat, (k : Int) + 1 < ceilThird entries.length → (shown k).length = 3) := by
  have hc := ceilThird_eq entries.length
  refine ⟨fun k => (entries.drop (3 * k)).take 3, ?_, ?_, ?_, ?_⟩
  · intro k hk
    refine ⟨pageViewSpec (req k) ((k : Int) + 1) entries, ?_, rfl, ?_⟩
    · rw [friendsHandler_of_read fuel content (req k) entries hread,
        requestedPage_of_ok (hreq k hk) (by omega)]
      exact friendsPage_in_range fuel (req k) ((k : Int) + 1) entries hfuel hlen (by omega)
        (by omega)
    · simp only [pageViewSpec]
      exact subList_page entries k
  · rw [flatten_pages]
    apply List.take_of_length_le
    omega
  · intro k hk
    simp only [List.length_take, List.length_drop]
    omega
  · intro k hk
    simp only [List.length_take, List.length_drop]
    omega

/-- C9, witness: the two pages of the four sample entries. -/
theorem friendsHandler_pages_partition_witness :
    (4 ≤ 4) ∧ getFriendsFromTextFile demoStore friendsFile = some demoEntries ∧
    ((demoEntries.length : Int) + friendsPerPage - 1 ≤ maxInt) ∧
    (∀ k : Nat, (k : Int) < ceilThird demoEntries.length →
      Atoi (demoRequest (if k = 0 then "1" else "2")).page = ((k : Int) + 1, none)) ∧
    ∃ shown : Nat → List HTML,
      (∀ k : Nat, (k : Int) < ceilThird demoEntries.length →
        ∃ data : PageData,
          friendsHandler 4 demoStore (demoRequest (if k = 0 then "1" else "2"))
            = Outcome.render indexTmpl (some data) StatusOK ∧
          data.CurrentPage = (k : Int) + 1 ∧ data.Friends = shown k) ∧
      ((List.range (ceilThird demoEntries.length).toNat).map shown).flatten = demoEntries ∧
      (∀ k : Nat, (k : Int) < ceilThird demoEntries.length →
        1 ≤ (shown k).length ∧ (shown k).length ≤ 3) ∧
      (∀ k : Nat, (k : Int) + 1 < ceilThird demoEntries.length → (shown k).length = 3) :=
  have hreq : ∀ k : Nat, (k : Int) < ceilThird demoEntries.length →
      Atoi (demoRequest (if k = 0 then "1" else "2")).page = ((k : Int) + 1, none) := by
    intro k hk
    have hk2 : k < 2 := by
      simp [ceilThird_eq, demoEntries] at hk
      omega
    interval_cases k <;> decide
  ⟨by decide, by decide, by decide, hreq,
    friendsHandler_pages_partition 4 demoStore
      (fun k => demoRequest (if k = 0 then "1" else "2")) demoEntries (by decide) (by decide)
      (by decide) hreq⟩

/-- C7: for every file content that is read successfully,
`getFriendsFromTextFile` returns, in file order, one entry for each block of
the split on `"\n\n"` whose trimmed text is non-empty, the entry being the
trimmed block with every newline replaced by `<br>`; no returned entry is
empty, starts or ends with white space, or contains a newline. -/
theorem getFriendsFromTextFile_spec (content : FS) (filePath data : GoString)
    (hread : content filePath = some data) :
    getFriendsFromTextFile content filePath = some (friendsSpec data) ∧
    ∀ e ∈ friendsSpec data,
      ∃ h : e ≠ [],
        IsSpace (e.head h) = false ∧ IsSpace (e.getLast h) = false ∧ '\n' ∉ e := by
  constructor
  · unfold getFriendsFromTextFile friendsSpec
    simp only [hread]
    rw [foldl_friendsStep]
    simp
  · intro e he
    unfold friendsSpec at he
    rw [List.mem_map] at he
    obtain ⟨t, ht, rfl⟩ := he
    rw [List.mem_filter, List.mem_map] at ht
    obtain ⟨⟨b, _, rfl⟩, hne⟩ := ht
    have hne2 : TrimSpace b ≠ [] := by simpa using hne
    obtain ⟨h2, hh, hl⟩ := brLines_of_trimmed (TrimSpace b) hne2 (TrimSpace_head b hne2)
      (TrimSpace_getLast b hne2)
    exact ⟨h2, hh, hl, brLines_no_newline _⟩

/-- C7, witness: the sample quotes file. -/
theorem getFriendsFromTextFile_spec_witness :
    demoStore friendsFile = some "q1\nl2\n\n  \n\nq2\n\n\nq3\n\nq4\n".toList ∧
    (getFriendsFromTextFile demoStore friendsFile
        = some (friendsSpec "q1\nl2\n\n  \n\nq2\n\n\nq3\n\nq4\n".toList) ∧
      ∀ e ∈ friendsSpec "q1\nl2\n\n  \n\nq2\n\n\nq3\n\nq4\n".toList,
        ∃ h : e ≠ [],
          IsSpace (e.head h) = false ∧ IsSpace (e.getLast h) = false ∧ '\n' ∉ e) :=
  ⟨by decide, getFriendsFromTextFile_spec demoStore friendsFile _ (by decide)⟩

/-- The sample quotes file holds the four sample entries. -/
theorem friendsSpec_demo :
    friendsSpec "q1\nl2\n\n  \n\nq2\n\n\nq3\n\nq4\n".toList = demoEntries := by decide

/-- C8, the code at the failing input: when `templates/500.html` is missing
from the content store, does not parse, or fails to execute, rendering the 500
page (`internalServerErrorHandler`, and `renderTemplate` on
`templates/500.html`) calls itself again without end: no amount of fuel lets it
return, so the 500 page is never rendered. A template that loads, such as
`templates/404.html`, is rendered normally in the same store. -/
theorem renderTemplate_broken_errorTmpl_diverges :
    (∀ (fuel : Nat) (w : ResponseWriter),
      internalServerErrorHandler fuel envWithoutErrorTmpl w = none ∧
      renderTemplate fuel envWithoutErrorTmpl w errorTmpl none StatusInternalServerError
        = none) ∧
    (∀ (fuel : Nat) (w : ResponseWriter),
      internalServerErrorHandler fuel envUnparsableErrorTmpl w = none ∧
      renderTemplate fuel envUnparsableErrorTmpl w errorTmpl none StatusInternalServerError
        = none) ∧
    (∀ (fuel : Nat) (w : ResponseWriter),
      internalServerErrorHandler fuel envFailingErrorTmpl w = none ∧
      renderTemplate fuel envFailingErrorTmpl w errorTmpl none StatusInternalServerError
        = none) ∧
    notFoundHandler 1 envWithoutErrorTmpl freshWriter
      = some { status := some StatusNotFound, body := [] } := by
  refine ⟨?_, ?_, ?_, by decide⟩
  · exact errorHandler_never_returns envWithoutErrorTmpl (Or.inl (by decide))
  · exact errorHandler_never_returns envUnparsableErrorTmpl
      (Or.inr (Or.inl ⟨"\x7b\x7b".toList, by decide, rfl⟩))
  · exact errorHandler_never_returns envFailingErrorTmpl
      (Or.inr (Or.inr ⟨"\x7b\x7b.X\x7d\x7d".toList, failingTemplate, by decide, rfl, rfl⟩))

end FriendshipDay
